import Mathlib

/-!
Shallow embedding of `src/arpes/utilities/conversion/forward.py` (forward
angle-to-momentum coordinate conversion for ARPES data), together with models
of the two collaborators that the file imports from outside `src/`:
the `euler_to_kx/ky/kz` rotation formulas from
`utilities.conversion.bounds_calculations` and the `.S` xarray accessor.

Numeric values are carried by `ℤ` (an ordered commutative ring standing in for
the floating-point numbers of the source; every arithmetic operation the
pipeline performs is a ring operation), while the transcendental functions
`np.sqrt`, `np.sin`, `np.cos` and the physical constant `C` are abstracted as
an uninterpreted bundle `NumOps`, so every theorem proved generically in
`NumOps` holds whatever those functions compute.
-/

namespace Arpes

/-- Lexicographic comparison of character lists by code point, as Python
compares strings. -/
def charListLe : List Char → List Char → Bool
  | [], _ => true
  | _ :: _, [] => false
  | a :: as, b :: bs =>
    if a.toNat < b.toNat then true
    else if b.toNat < a.toNat then false
    else charListLe as bs

/-- String order used by Python's `list.sort()` on the dimension names. -/
def strLe (a b : String) : Bool := charListLe a.data b.data

/-- Insertion into a sorted list of strings. -/
def insertSorted (s : String) : List String → List String
  | [] => [s]
  | x :: xs => if strLe s x then s :: x :: xs else x :: insertSorted s xs

/-- Sorting of the dimension-name list, models `old_dims.sort()` (line 54). -/
def sortStrings (l : List String) : List String := l.foldr insertSorted []

/-- First-match association-list lookup: the semantics of a Python dict read
`d[k]` over our list model of `dict` entries. -/
def alookup (k : String) : List (String × α) → Option α
  | [] => none
  | (k', v) :: rest => if k = k' then some v else alookup k rest

/-- Cons a fixed coordinate onto every multi-index of a list. -/
def prependAll (i : Nat) (ls : List (List Nat)) : List (List Nat) :=
  ls.map (i :: ·)

/-- All multi-indices of an N-dimensional shape, in row-major order. -/
def allIdx : List Nat → List (List Nat)
  | [] => [[]]
  | n :: rest =>
    let sub := allIdx rest
    ((List.range n).map (fun i => prependAll i sub)).foldr (· ++ ·) []

/-- Uninterpreted numeric kernel: the physical constant `C` relating energy to
inverse length, and the elementwise `np.sqrt`, `np.sin`, `np.cos` used by the
rotation formulas.  Kept abstract because the source computes them in floating
point. -/
structure NumOps where
  c : ℤ
  sqrt : ℤ → ℤ
  sin : ℤ → ℤ
  cos : ℤ → ℤ

/-- Failure conditions the Python code can raise while converting:
dictionary `KeyError`, `TypeError` (`None` used as a list index or as the
right operand of `in`), `ValueError` (ambiguous array truth value, xarray
shape mismatch), and the spec's InvalidKinematics condition for negative
kinetic energy. -/
inductive PyErr
  | keyError (k : String)
  | typeError
  | valueError
  | invalidKinematics
deriving DecidableEq

/-- Value of one coordinate entry of an `xr.DataArray`: a zero-dimensional
(scalar) coordinate or a one-dimensional coordinate sequence. -/
inductive CoordVal
  | scalar (v : ℤ)
  | vec (vs : List ℤ)
deriving DecidableEq

/-- Modelled from the spec: the `.S` accessor used throughout `forward.py` is
defined outside `src/`.  Spec section 6 lists its read-only scalar geometry
fields; `full_coords` is the coordinate mapping that spec section 4.2 says
supplies derived coordinates to `fill_coords`, with whatever entries the
metadata of the measurement actually provides. -/
structure Metadata where
  phi_offset : ℤ
  polar_offset : ℤ
  work_function : ℤ
  inner_potential : ℤ
  is_slit_vertical : Bool
  full_coords : List (String × CoordVal)
deriving DecidableEq

/-- An `xr.DataArray`: named dimensions in order, a coordinate dictionary,
the flattened measurement data, and the attached metadata accessor. -/
structure DataArray where
  dims : List String
  coords : List (String × CoordVal)
  data : List ℤ
  S : Metadata
deriving DecidableEq

/-- Model of `arr.indexes`: the dimension coordinates, i.e. the dimensions
that carry a one-dimensional coordinate sequence, in dimension order. -/
def DataArray.indexes (arr : DataArray) : List (String × List ℤ) :=
  arr.dims.filterMap (fun d =>
    match alookup d arr.coords with
    | some (.vec vs) => some (d, vs)
    | _ => none)

/-- A numpy array in the broadcast index space: its actual shape, and its
value as a total function of the full multi-index (an axis of extent 1 simply
ignores its index component, which is numpy's broadcasting semantics). -/
structure NArr where
  shape : List Nat
  val : List Nat → ℤ

/-- Model of `np.ones(target_shape) * data`: a constant array of full shape. -/
def constArr (shape : List Nat) (v : ℤ) : NArr :=
  ⟨shape, fun _ => v⟩

/-- Shape produced by `np.asarray(data)[the_slice]` where `the_slice` has
`slice(None)` at position `p` and `None` (new axis of extent 1) elsewhere. -/
def injShape (n : Nat) (p : Nat) (len : Nat) : List Nat :=
  (List.range n).map (fun j => if j = p then len else 1)

/-- Model of the `None`-slice injection: a 1-D sequence placed on axis `p` of
a rank-`n` space; its value depends only on the `p`-th index component. -/
def injArr (n p : Nat) (vs : List ℤ) : NArr :=
  ⟨injShape n p vs.length, fun i => vs.getD (i.getD p 0) 0⟩

/-- Numpy broadcast of two equal-rank shapes whose axes are each either the
full extent or 1: the elementwise maximum. -/
def bshape (a b : List Nat) : List Nat := List.zipWith max a b

/-- Elementwise numpy addition with broadcasting. -/
def NArr.add (a b : NArr) : NArr :=
  ⟨bshape a.shape b.shape, fun i => a.val i + b.val i⟩

/-- Elementwise numpy multiplication with broadcasting. -/
def NArr.mul (a b : NArr) : NArr :=
  ⟨bshape a.shape b.shape, fun i => a.val i * b.val i⟩

/-- Elementwise application of a unary function. -/
def NArr.emap (f : ℤ → ℤ) (a : NArr) : NArr :=
  ⟨a.shape, fun i => f (a.val i)⟩

/-- Whether some in-range point of the array is negative. -/
def NArr.hasNeg (a : NArr) : Bool :=
  (allIdx a.shape).any (fun i => decide (a.val i < 0))

/-- A Python value reaching `broadcast_by_dim_location`: a plain number
(`int`/`float`/numpy scalar), a 1-D `np.ndarray`, a zero-dimensional
`xr.DataArray`, or a 1-D `xr.DataArray`. -/
inductive PyVal
  | num (v : ℤ)
  | nd (vs : List ℤ)
  | daScalar (v : ℤ)
  | daVec (vs : List ℤ)
deriving DecidableEq

/-- Model of `.values` on a coordinate `DataArray`: a numpy scalar for a
0-d coordinate (numpy arithmetic on 0-d arrays yields scalars), else a 1-D
`np.ndarray`. -/
def CoordVal.values : CoordVal → PyVal
  | .scalar v => .num v
  | .vec vs => .nd vs

/-- A coordinate entry used directly as the `xr.DataArray` it is. -/
def CoordVal.asDA : CoordVal → PyVal
  | .scalar v => .daScalar v
  | .vec vs => .daVec vs

/-- Pointwise subtraction of a scalar, as numpy/xarray broadcast it over each
of the possible operand kinds. -/
def PyVal.subScalar : PyVal → ℤ → PyVal
  | .num v, c => .num (v - c)
  | .nd vs, c => .nd (vs.map (· - c))
  | .daScalar v, c => .daScalar (v - c)
  | .daVec vs, c => .daVec (vs.map (· - c))

/-- Model of the Python expression `x or 0` (line 91): `bool(x)` selects `x`
when truthy and `0` otherwise; `bool` of a multi-element array raises
`ValueError` ("the truth value of an array with more than one element is
ambiguous"), of an empty array is `False`, of a one-element array is the truth
of its element. -/
def pyOr0 : PyVal → Except PyErr PyVal
  | .num v => .ok (if v = 0 then .num 0 else .num v)
  | .daScalar v => .ok (if v = 0 then .num 0 else .daScalar v)
  | .nd vs =>
    match vs with
    | [] => .ok (.num 0)
    | [v] => .ok (if v = 0 then .num 0 else .nd [v])
    | _ => .error .valueError
  | .daVec vs =>
    match vs with
    | [] => .ok (.num 0)
    | [v] => .ok (if v = 0 then .num 0 else .daVec [v])
    | _ => .error .valueError

/-- Model of `full_old_dims.index(k) if k in full_old_dims else None`. -/
def dimLocAux (k : String) : List String → Nat → Option Nat
  | [], _ => none
  | d :: rest, n => if d = k then some n else dimLocAux k rest (n + 1)

/-- Position of a dimension name in the fixed axis ordering, if present. -/
def dimLoc (k : String) (l : List String) : Option Nat := dimLocAux k l 0

/-- Model of `broadcast_by_dim_location` (lines 75-87): a 0-d `DataArray` is
collapsed with `.item()`; a number is multiplied onto `np.ones(target_shape)`;
an actual array is injected with a `None`-slice whose `slice(None)` sits at
`dim_location` - and when `dim_location` is `None`, the assignment
`the_slice[None] = ...` raises `TypeError` (list indices must be integers). -/
def broadcast_by_dim_location (data : PyVal) (target_shape : List Nat)
    (dim_location : Option Nat) : Except PyErr NArr :=
  match data with
  | .num v => .ok (constArr target_shape v)
  | .daScalar v => .ok (constArr target_shape v)
  | .nd vs =>
    match dim_location with
    | none => .error .typeError
    | some p => .ok (injArr target_shape.length p vs)
  | .daVec vs =>
    match dim_location with
    | none => .error .typeError
    | some p => .ok (injArr target_shape.length p vs)

/-- Dictionary read `arr.coords[k]`: `KeyError` when the key is absent. -/
def getCoord (arr : DataArray) (k : String) : Except PyErr CoordVal :=
  match alookup k arr.coords with
  | some c => .ok c
  | none => .error (.keyError k)

/-- Line 90: `arr.coords['phi'].values - arr.S.phi_offset`. -/
def rawPhi (arr2 : DataArray) : Except PyErr PyVal := do
  let c ← getCoord arr2 "phi"
  .ok ((CoordVal.values c).subScalar arr2.S.phi_offset)

/-- Line 91: `(arr.coords['polar'].values or 0) - arr.S.polar_offset`. -/
def rawPolar (arr2 : DataArray) : Except PyErr PyVal := do
  let c ← getCoord arr2 "polar"
  let v ← pyOr0 (CoordVal.values c)
  .ok (v.subScalar arr2.S.polar_offset)

/-- Line 92: `arr.coords['hv']`, the coordinate `DataArray` itself. -/
def rawHv (arr2 : DataArray) : Except PyErr PyVal := do
  let c ← getCoord arr2 "hv"
  .ok (CoordVal.asDA c)

/-- Lines 99-100: the binding-energy term
`broadcast_by_dim_location(arr.coords['eV'] - arr.S.work_function, shape,
full_old_dims.index('eV') if 'eV' in full_old_dims else None)`. -/
def bindingStage (arr2 : DataArray) (full_old : List String) (shape : List Nat) :
    Except PyErr NArr := do
  let c ← getCoord arr2 "eV"
  broadcast_by_dim_location ((CoordVal.asDA c).subScalar arr2.S.work_function)
    shape (dimLoc "eV" full_old)

/-- Line 101: the photon-energy term
`broadcast_by_dim_location(arr.coords['hv'], shape, ...)`. -/
def photonStage (arr2 : DataArray) (full_old : List String) (shape : List Nat) :
    Except PyErr NArr := do
  let c ← getCoord arr2 "hv"
  broadcast_by_dim_location (CoordVal.asDA c) shape (dimLoc "hv" full_old)

/-- Line 102: `kinetic_energy = binding_energy + photon_energy`, each term
independently broadcast first. -/
def kineticStage (arr2 : DataArray) (full_old : List String) (shape : List Nat) :
    Except PyErr NArr := do
  let b ← bindingStage arr2 full_old shape
  let p ← photonStage arr2 full_old shape
  .ok (b.add p)

/-- Free-electron wavevector magnitude `k = C * sqrt(kinetic_energy)`. -/
def kMag (ops : NumOps) (kE : NArr) : NArr :=
  ⟨kE.shape, fun i => ops.c * ops.sqrt (kE.val i)⟩

/-- Modelled from the spec: `euler_to_kx` lives in
`utilities.conversion.bounds_calculations`, which is not under `src/`.
Spec section 4.5 gives, at the fixed slit-tilt angle θ = 0, the standard
convention `kx = k sin(polar) cos(phi)` and the vertical-slit convention
`kx = k sin(phi)`, and requires negative kinetic energy to be reported as an
InvalidKinematics failure rather than silently computed. -/
def euler_to_kx (ops : NumOps) (kE phi polar : NArr) (_theta : ℤ)
    (slit_is_vertical : Bool) : Except PyErr NArr :=
  if kE.hasNeg then .error .invalidKinematics
  else .ok (if slit_is_vertical then (kMag ops kE).mul (phi.emap ops.sin)
            else ((kMag ops kE).mul (polar.emap ops.sin)).mul (phi.emap ops.cos))

/-- Modelled from the spec: `euler_to_ky` from
`utilities.conversion.bounds_calculations` (not under `src/`).  At θ = 0 the
standard convention is `ky = k sin(phi)` and the vertical-slit convention is
`ky = k cos(phi) sin(polar)`; negative kinetic energy is an InvalidKinematics
failure. -/
def euler_to_ky (ops : NumOps) (kE phi polar : NArr) (_theta : ℤ)
    (slit_is_vertical : Bool) : Except PyErr NArr :=
  if kE.hasNeg then .error .invalidKinematics
  else .ok (if slit_is_vertical then ((kMag ops kE).mul (phi.emap ops.cos)).mul (polar.emap ops.sin)
            else (kMag ops kE).mul (phi.emap ops.sin))

/-- Modelled from the spec: `euler_to_kz` from
`utilities.conversion.bounds_calculations` (not under `src/`).  Spec section
4.5: `kz = C * sqrt(kinetic_energy * (kz_angular/k)^2 + inner_potential)`,
where at θ = 0 the angular factor `kz_angular/k` equals
`cos(phi) * cos(polar)` under both slit conventions; negative kinetic energy
is an InvalidKinematics failure. -/
def euler_to_kz (ops : NumOps) (kE phi polar : NArr) (_theta : ℤ)
    (_slit_is_vertical : Bool) (inner_potential : ℤ) : Except PyErr NArr :=
  if kE.hasNeg then .error .invalidKinematics
  else .ok ⟨bshape (bshape kE.shape phi.shape) polar.shape,
            fun i => ops.c * ops.sqrt (kE.val i *
              (ops.cos (phi.val i) * ops.cos (polar.val i)) ^ 2 + inner_potential)⟩

/-- Line 159: `np.sqrt(raw_translated['kx'] ** 2 + raw_translated['ky'] ** 2)`. -/
def kpOf (ops : NumOps) (kx ky : NArr) : NArr :=
  ⟨bshape kx.shape ky.shape, fun i => ops.sqrt (kx.val i ^ 2 + ky.val i ^ 2)⟩

/-- Mapping of a post-squeeze multi-index back to a pre-squeeze one: removed
axes (extent 1) always contribute index 0. -/
def unsqIdx : List Nat → List Nat → List Nat
  | [], _ => []
  | n :: rest, is =>
    if n = 1 then 0 :: unsqIdx rest is
    else
      match is with
      | [] => 0 :: unsqIdx rest []
      | i :: is' => i :: unsqIdx rest is'

/-- Model of `np.squeeze`: every axis of extent 1 is removed. -/
def np_squeeze (a : NArr) : NArr :=
  ⟨a.shape.filter (fun n => n != 1), fun i => a.val (unsqIdx a.shape i)⟩

/-- The `xr.Dataset` returned on success: named data variables (each with its
dimension names and array) over the original index coordinates. -/
structure Dataset where
  data_vars : List (String × List String × NArr)
  coords : List (String × List ℤ)

/-- Validity of one data variable inside `xr.Dataset(...)`: the array rank
must equal the number of dimension names, and each dimension's extent must
agree with its index coordinate when one exists. -/
def dvarOK (coords : List (String × List ℤ)) (ds : List String) (a : NArr) : Bool :=
  a.shape.length == ds.length &&
  (List.zip ds a.shape).all (fun q =>
    match alookup q.1 coords with
    | some vs => vs.length == q.2
    | none => true)

/-- Model of the `xr.Dataset(data_vars, coords=...)` constructor (line 165),
which raises `ValueError` on a rank or size mismatch. -/
def mkDataset (dvars : List (String × List String × NArr))
    (coords : List (String × List ℤ)) : Except PyErr Dataset :=
  if dvars.all (fun t => dvarOK coords t.2.1 t.2.2) then .ok ⟨dvars, coords⟩
  else .error .valueError

/-- Lines 161-163: for every destination coordinate, pair the full dimension
list with the squeezed translated array (`KeyError` if absent, which cannot
happen for the table's rows). -/
def buildVars (dest : List String) (translated : List (String × NArr))
    (full_old : List String) : Except PyErr (List (String × List String × NArr)) :=
  match dest with
  | [] => .ok []
  | d :: rest =>
    match alookup d translated with
    | none => .error (.keyError d)
    | some a => do
      let tl ← buildVars rest translated full_old
      .ok ((d, full_old, np_squeeze a) :: tl)

/-- Line 158: evaluating `'kp' in dest_coords` when the table lookup returned
`None` raises `TypeError` (argument of type NoneType is not iterable). -/
def destOrTypeErr : Option (List String) → Except PyErr (List String)
  | none => .error .typeError
  | some d => .ok d

/-- The fixed classification table of lines 59-66: sorted angular dimension
tuples mapped to the momentum coordinates they produce; `.get` yields `None`
for anything else. -/
def destTable (t : List String) : Option (List String) :=
  if t = ["phi"] then some ["kp", "kz"]
  else if t = ["polar"] then some ["kp", "kz"]
  else if t = ["phi", "polar"] then some ["kx", "ky", "kz"]
  else if t = ["hv", "phi"] then some ["kx", "ky", "kz"]
  else if t = ["hv"] then some ["kp", "kz"]
  else if t = ["hv", "phi", "polar"] then some ["kx", "ky", "kz"]
  else none

/-- Body of `convert_coordinates_to_kspace_forward` after the coordinate fill
(lines 89-165), in the source's evaluation order: read phi, polar, hv (dict
literal, lines 89-93), broadcast the three raw coordinates (lines 95-96),
form the kinetic energy (99-102), apply the rotation formulas (148-156), test
`'kp' in dest_coords` (158), assemble and validate the output (161-165).
The broadcast of `raw_coords['hv']` is computed but never used afterwards,
exactly as in the source. -/
def convertAux (ops : NumOps) (arr2 : DataArray) (full_old : List String)
    (shape : List Nat) (dest? : Option (List String)) : Except PyErr Dataset := do
  let rp ← rawPhi arr2
  let rpo ← rawPolar arr2
  let rh ← rawHv arr2
  let phiB ← broadcast_by_dim_location rp shape (dimLoc "phi" full_old)
  let polarB ← broadcast_by_dim_location rpo shape (dimLoc "polar" full_old)
  let _hvB ← broadcast_by_dim_location rh shape (dimLoc "hv" full_old)
  let kinetic ← kineticStage arr2 full_old shape
  let kx ← euler_to_kx ops kinetic phiB polarB 0 arr2.S.is_slit_vertical
  let ky ← euler_to_ky ops kinetic phiB polarB 0 arr2.S.is_slit_vertical
  let kz ← euler_to_kz ops kinetic phiB polarB 0 arr2.S.is_slit_vertical
    arr2.S.inner_potential
  let dest ← destOrTypeErr dest?
  let translated := [("kx", kx), ("ky", ky), ("kz", kz)] ++
    (if "kp" ∈ dest then [("kp", kpOf ops kx ky)] else [])
  let dvars ← buildVars dest translated full_old
  mkDataset dvars (DataArray.indexes arr2)

/-- One iteration of the `fill_coords` loop (lines 33-35): add the entry only
when its key is not already among the coordinates. -/
def fillStep (a : DataArray) (kv : String × CoordVal) : DataArray :=
  if (alookup kv.1 a.coords).isSome then a
  else { a with coords := a.coords ++ [kv] }

/-- Model of `fill_coords` (lines 20-37): when any of phi, polar, hv is a
dimension, copy every entry of `arr.S.full_coords` that is not already a
coordinate; otherwise do nothing. -/
def fill_coords (arr : DataArray) : DataArray :=
  if "phi" ∈ arr.dims ∨ "polar" ∈ arr.dims ∨ "hv" ∈ arr.dims then
    arr.S.full_coords.foldl fillStep arr
  else arr

/-- The skip set of line 47. -/
def skipNames : List String := ["eV", "cycle", "delay", "T"]

/-- The keep set of line 48. -/
def keepNames : List String := ["eV"]

/-- Lines 50-54: the sorted non-skipped index dimension names. -/
def oldDimsOf (arr : DataArray) : List String :=
  sortStrings ((arr.indexes.filter (fun p => !(skipNames.contains p.1))).map Prod.fst)

/-- Line 51: the kept index dimension names, in index order. -/
def keptNamesOf (arr : DataArray) : List String :=
  (arr.indexes.filter (fun p => keepNames.contains p.1)).map Prod.fst

/-- Line 68: `full_old_dims = old_dims + list(kept.keys())`. -/
def fullOldDimsOf (arr : DataArray) : List String :=
  oldDimsOf arr ++ keptNamesOf arr

/-- Line 69: the broadcast target shape
`tuple(len(arr.coords[d]) for d in full_old_dims)`, read before the
coordinate fill.  Every name in `full_old_dims` is an index, so its
coordinate is a sequence. -/
def shapeOf (arr : DataArray) : List Nat :=
  (fullOldDimsOf arr).map (fun d =>
    match alookup d arr.coords with
    | some (.vec vs) => vs.length
    | _ => 0)

/-- Model of `convert_coordinates_to_kspace_forward` (lines 39-165).  The
first component is the final state of the input array (line 71 is its only
mutation); the second is the returned value: `.ok none` for the early
`return None` of line 57, `.ok (some ds)` for a built Dataset, `.error e`
for a raised exception. -/
def convert_coordinates_to_kspace_forward (ops : NumOps) (arr : DataArray) :
    DataArray × Except PyErr (Option Dataset) :=
  if oldDimsOf arr = [] then (arr, .ok none)
  else
    (fill_coords arr,
     (convertAux ops (fill_coords arr) (fullOldDimsOf arr) (shapeOf arr)
        (destTable (oldDimsOf arr))).map some)

/-! Concrete instances used by witnesses and counterexamples. -/

/-- A concrete numeric kernel (C = 1, sqrt, sin, cos all the identity) for
evaluating the pipeline on closed inputs; claims proved generically in
`NumOps` are instantiated with it. -/
def idOps : NumOps := ⟨1, id, id, id⟩

/-- Geometry metadata with all offsets zero and no derivable coordinates. -/
def metaZero : Metadata := ⟨0, 0, 0, 0, false, []⟩

/-- A (polar,) scan: polar has two values, eV is kept, phi and hv are scalar
coordinates.  Its sorted non-skipped dimension tuple `("polar",)` is a
supported table row. -/
def polarScanArr : DataArray :=
  ⟨["polar", "eV"],
   [("polar", .vec [1, 2]), ("eV", .vec [0, 1]), ("phi", .scalar 0), ("hv", .scalar 0)],
   [7, 7, 7, 7], metaZero⟩

/-- An (hv, polar) scan - a dimension combination absent from the table.
The single polar value keeps line 91 alive so that execution reaches the
`'kp' in dest_coords` test of line 158. -/
def hvPolarArr : DataArray :=
  ⟨["hv", "polar"],
   [("hv", .vec [10, 20]), ("polar", .vec [5]), ("phi", .scalar 0), ("eV", .scalar 0)],
   [1, 2], metaZero⟩

/-- A (phi,) scan whose coordinates and metadata supply no polar entry. -/
def noPolarArr : DataArray :=
  ⟨["phi"],
   [("phi", .vec [1, 2]), ("eV", .scalar 0), ("hv", .scalar 9)],
   [3, 4], metaZero⟩

/-- An array carrying a present polar coordinate whose value is exactly 0,
with a nonzero polar offset. -/
def zeroPolarArr : DataArray :=
  ⟨["phi"],
   [("phi", .vec [1]), ("polar", .scalar 0), ("hv", .scalar 0), ("eV", .scalar 0)],
   [0], { metaZero with polar_offset := 5 }⟩

/-- A well-formed (phi,) scan with kept eV axis: the success-path example. -/
def phiScanArr : DataArray :=
  ⟨["phi", "eV"],
   [("phi", .vec [1, 2]), ("eV", .vec [0, 1]), ("polar", .scalar 0), ("hv", .scalar 0)],
   [99, 98, 97, 96], metaZero⟩

/-- A scan whose scalar eV coordinate makes every kinetic energy negative. -/
def negKEArr : DataArray :=
  ⟨["phi"],
   [("phi", .vec [1]), ("polar", .scalar 0), ("hv", .scalar 0), ("eV", .scalar (-5))],
   [0], metaZero⟩

/-- An array with no phi coordinate anywhere. -/
def noPhiArr : DataArray :=
  ⟨["hv"], [("hv", .vec [10])], [0], metaZero⟩

/-- Extraction of a successful broadcast/stage result, for instantiating
theorems at concrete inputs. -/
def getOkN (e : Except PyErr NArr) : NArr :=
  match e with
  | .ok a => a
  | .error _ => ⟨[], fun _ => 0⟩

/-- Extraction of a successful Dataset result. -/
def getDs (e : Except PyErr (Option Dataset)) : Dataset :=
  match e with
  | .ok (some ds) => ds
  | _ => ⟨[], []⟩

/-- Names of the data variables of a successful conversion result. -/
def varNamesOf : Except PyErr (Option Dataset) → List String
  | .ok (some ds) => ds.data_vars.map Prod.fst
  | _ => []

/-- Every numeric value stored in the data variables of a successful
conversion result, enumerated over each variable's in-range indices. -/
def storedValsOf : Except PyErr (Option Dataset) → List ℤ
  | .ok (some ds) =>
    (ds.data_vars.map (fun t => (allIdx t.2.2.shape).map t.2.2.val)).foldr (· ++ ·) []
  | _ => []

/-- Whether a conversion result is a successfully built Dataset. -/
def okSome : Except PyErr (Option Dataset) → Bool
  | .ok (some _) => true
  | _ => false

/-- Extraction of a Dataset from the body of `convertAux`, for instantiating
theorems at concrete inputs. -/
def getDsA : Except PyErr Dataset → Dataset
  | .ok ds => ds
  | .error _ => ⟨[], []⟩

/-- Value contributed by a coordinate at one point of the broadcast index
space: a scalar coordinate contributes its constant, a sequence coordinate on
axis `p` contributes its entry at the `p`-th index component. -/
def coordPointVal (c : CoordVal) (loc : Option Nat) (i : List Nat) : ℤ :=
  match c, loc with
  | .scalar v, _ => v
  | .vec vs, some p => vs.getD (i.getD p 0) 0
  | .vec _, none => 0

/-- Whether a multi-index is within range of a coordinate's sequence on its
axis (always true for a scalar coordinate; false for a sequence coordinate
with no axis position, which the broadcast projector rejects anyway). -/
def inRangeB (c : CoordVal) (loc : Option Nat) (i : List Nat) : Bool :=
  match c, loc with
  | .scalar _, _ => true
  | .vec vs, some p => decide (i.getD p 0 < vs.length)
  | .vec _, none => false

end Arpes

namespace Arpes

/-! Generic lemmas about the `Except` chain and the assembly helpers. -/

theorem exbind_ok {α β : Type} (a : α) (f : α → Except PyErr β) :
    (Except.ok a >>= f : Except PyErr β) = f a := rfl

theorem exbind_err {α β : Type} (e : PyErr) (f : α → Except PyErr β) :
    (Except.error e >>= f : Except PyErr β) = Except.error e := rfl

theorem mkDataset_ok (dvars : List (String × List String × NArr))
    (coords : List (String × List ℤ)) (ds : Dataset)
    (h : mkDataset dvars coords = .ok ds) : ds = ⟨dvars, coords⟩ := by
  unfold mkDataset at h
  split at h
  · cases h; rfl
  · exact absurd h (by simp)

theorem buildVars_names (dest : List String) (tr : List (String × NArr))
    (fo : List String) (dv : List (String × List String × NArr))
    (h : buildVars dest tr fo = .ok dv) : dv.map Prod.fst = dest := by
  induction dest generalizing dv with
  | nil => unfold buildVars at h; cases h; rfl
  | cons d rest ih =>
    unfold buildVars at h
    cases hl : alookup d tr with
    | none => rw [hl] at h; exact absurd h (by simp)
    | some a =>
      rw [hl] at h
      cases ht : buildVars rest tr fo with
      | error e => rw [ht] at h; simp only [exbind_err] at h; exact absurd h (by simp)
      | ok tl =>
        rw [ht] at h
        simp only [exbind_ok] at h
        cases h
        simp only [List.map_cons]
        exact congrArg (d :: ·) (ih tl ht)

theorem buildVars_lookup_isSome (dest : List String) (tr : List (String × NArr))
    (fo : List String) (dv : List (String × List String × NArr))
    (h : buildVars dest tr fo = .ok dv) (k : String) :
    (alookup k dv).isSome ↔ k ∈ dest := by
  induction dest generalizing dv with
  | nil => unfold buildVars at h; cases h; simp [alookup]
  | cons d rest ih =>
    unfold buildVars at h
    cases hl : alookup d tr with
    | none => rw [hl] at h; exact absurd h (by simp)
    | some a =>
      rw [hl] at h
      cases ht : buildVars rest tr fo with
      | error e => rw [ht] at h; simp only [exbind_err] at h; exact absurd h (by simp)
      | ok tl =>
        rw [ht] at h
        simp only [exbind_ok] at h
        cases h
        by_cases hk : k = d
        · subst hk; simp [alookup]
        · simp [alookup, hk, ih tl ht]

theorem buildVars_lookup_eq (dest : List String) (tr : List (String × NArr))
    (fo : List String) (dv : List (String × List String × NArr))
    (h : buildVars dest tr fo = .ok dv) (k : String) (dims : List String) (a : NArr)
    (hk : alookup k dv = some (dims, a)) :
    dims = fo ∧ ∃ b, alookup k tr = some b ∧ a = np_squeeze b := by
  induction dest generalizing dv with
  | nil => unfold buildVars at h; cases h; simp [alookup] at hk
  | cons d rest ih =>
    unfold buildVars at h
    cases hl : alookup d tr with
    | none => rw [hl] at h; exact absurd h (by simp)
    | some b =>
      rw [hl] at h
      cases ht : buildVars rest tr fo with
      | error e => rw [ht] at h; simp only [exbind_err] at h; exact absurd h (by simp)
      | ok tl =>
        rw [ht] at h
        simp only [exbind_ok] at h
        cases h
        by_cases hkd : k = d
        · subst hkd
          simp only [alookup, if_pos rfl, eq_self_iff_true, if_true, Option.some.injEq,
            Prod.mk.injEq] at hk
          exact ⟨hk.1.symm, b, hl, hk.2.symm⟩
        · simp only [alookup, if_neg hkd] at hk
          exact ih tl ht hk

theorem bind_ok_elim {α β : Type} (x : Except PyErr α) (f : α → Except PyErr β) (b : β)
    (h : (x >>= f) = .ok b) : ∃ a, x = .ok a ∧ f a = .ok b := by
  cases x with
  | error e => simp only [exbind_err] at h; exact absurd h (by simp)
  | ok a => exact ⟨a, rfl, h⟩

theorem destOrTypeErr_ok (dest? : Option (List String)) (d : List String)
    (h : destOrTypeErr dest? = .ok d) : dest? = some d := by
  cases dest? with
  | none => exact absurd h (by simp [destOrTypeErr])
  | some d' => cases h; rfl

theorem bindingStage_ok (arr2 : DataArray) (fo : List String) (sh : List Nat) (b : NArr)
    (h : bindingStage arr2 fo sh = .ok b) :
    ∃ cE, getCoord arr2 "eV" = .ok cE ∧
      broadcast_by_dim_location ((CoordVal.asDA cE).subScalar arr2.S.work_function) sh
        (dimLoc "eV" fo) = .ok b := by
  simp only [bindingStage] at h
  obtain ⟨cE, h1, h2⟩ := bind_ok_elim _ _ _ h
  exact ⟨cE, h1, h2⟩

theorem photonStage_ok (arr2 : DataArray) (fo : List String) (sh : List Nat) (p : NArr)
    (h : photonStage arr2 fo sh = .ok p) :
    ∃ cH, getCoord arr2 "hv" = .ok cH ∧
      broadcast_by_dim_location (CoordVal.asDA cH) sh (dimLoc "hv" fo) = .ok p := by
  simp only [photonStage] at h
  obtain ⟨cH, h1, h2⟩ := bind_ok_elim _ _ _ h
  exact ⟨cH, h1, h2⟩

theorem kineticStage_ok (arr2 : DataArray) (fo : List String) (sh : List Nat) (K : NArr)
    (h : kineticStage arr2 fo sh = .ok K) :
    ∃ b p, bindingStage arr2 fo sh = .ok b ∧ photonStage arr2 fo sh = .ok p ∧
      K = b.add p := by
  simp only [kineticStage] at h
  obtain ⟨b, h1, h⟩ := bind_ok_elim _ _ _ h
  obtain ⟨p, h2, h⟩ := bind_ok_elim _ _ _ h
  cases h
  exact ⟨b, p, h1, h2, rfl⟩

theorem getCoord_ok (arr2 : DataArray) (k : String) (c : CoordVal)
    (h : getCoord arr2 k = .ok c) : alookup k arr2.coords = some c := by
  unfold getCoord at h
  cases hl : alookup k arr2.coords with
  | none => rw [hl] at h; exact absurd h (by simp)
  | some c' => rw [hl] at h; cases h; rfl

theorem rawPhi_ok (arr2 : DataArray) (x : PyVal) (h : rawPhi arr2 = .ok x) :
    ∃ c, alookup "phi" arr2.coords = some c ∧
      x = (CoordVal.values c).subScalar arr2.S.phi_offset := by
  simp only [rawPhi] at h
  obtain ⟨c, h1, h2⟩ := bind_ok_elim _ _ _ h
  cases h2
  exact ⟨c, getCoord_ok _ _ _ h1, rfl⟩

theorem rawPolar_ok (arr2 : DataArray) (x : PyVal) (h : rawPolar arr2 = .ok x) :
    ∃ c v, alookup "polar" arr2.coords = some c ∧
      pyOr0 (CoordVal.values c) = .ok v ∧
      x = v.subScalar arr2.S.polar_offset := by
  simp only [rawPolar] at h
  obtain ⟨c, h1, h⟩ := bind_ok_elim _ _ _ h
  obtain ⟨v, h2, h3⟩ := bind_ok_elim _ _ _ h
  cases h3
  exact ⟨c, v, getCoord_ok _ _ _ h1, h2, rfl⟩

theorem rawHv_ok (arr2 : DataArray) (x : PyVal) (h : rawHv arr2 = .ok x) :
    ∃ c, alookup "hv" arr2.coords = some c ∧ x = CoordVal.asDA c := by
  simp only [rawHv] at h
  obtain ⟨c, h1, h2⟩ := bind_ok_elim _ _ _ h
  cases h2
  exact ⟨c, getCoord_ok _ _ _ h1, rfl⟩

theorem convertAux_ok_elim (ops : NumOps) (arr2 : DataArray) (full_old : List String)
    (shape : List Nat) (dest? : Option (List String)) (ds : Dataset)
    (h : convertAux ops arr2 full_old shape dest? = .ok ds) :
    ∃ rp rpo rh phiB polarB hvB kinetic kx ky kz dest dvars,
      rawPhi arr2 = .ok rp ∧
      rawPolar arr2 = .ok rpo ∧
      rawHv arr2 = .ok rh ∧
      broadcast_by_dim_location rp shape (dimLoc "phi" full_old) = .ok phiB ∧
      broadcast_by_dim_location rpo shape (dimLoc "polar" full_old) = .ok polarB ∧
      broadcast_by_dim_location rh shape (dimLoc "hv" full_old) = .ok hvB ∧
      kineticStage arr2 full_old shape = .ok kinetic ∧
      euler_to_kx ops kinetic phiB polarB 0 arr2.S.is_slit_vertical = .ok kx ∧
      euler_to_ky ops kinetic phiB polarB 0 arr2.S.is_slit_vertical = .ok ky ∧
      euler_to_kz ops kinetic phiB polarB 0 arr2.S.is_slit_vertical
        arr2.S.inner_potential = .ok kz ∧
      dest? = some dest ∧
      buildVars dest ([("kx", kx), ("ky", ky), ("kz", kz)] ++
        (if "kp" ∈ dest then [("kp", kpOf ops kx ky)] else [])) full_old = .ok dvars ∧
      mkDataset dvars (DataArray.indexes arr2) = .ok ds := by
  simp only [convertAux] at h
  obtain ⟨rp, h1, h⟩ := bind_ok_elim _ _ _ h
  obtain ⟨rpo, h2, h⟩ := bind_ok_elim _ _ _ h
  obtain ⟨rh, h3, h⟩ := bind_ok_elim _ _ _ h
  obtain ⟨phiB, h4, h⟩ := bind_ok_elim _ _ _ h
  obtain ⟨polarB, h5, h⟩ := bind_ok_elim _ _ _ h
  obtain ⟨hvB, h6, h⟩ := bind_ok_elim _ _ _ h
  obtain ⟨kinetic, h7, h⟩ := bind_ok_elim _ _ _ h
  obtain ⟨kx, h8, h⟩ := bind_ok_elim _ _ _ h
  obtain ⟨ky, h9, h⟩ := bind_ok_elim _ _ _ h
  obtain ⟨kz, h10, h⟩ := bind_ok_elim _ _ _ h
  obtain ⟨dest, h11, h⟩ := bind_ok_elim _ _ _ h
  obtain ⟨dvars, h12, h⟩ := bind_ok_elim _ _ _ h
  exact ⟨rp, rpo, rh, phiB, polarB, hvB, kinetic, kx, ky, kz, dest, dvars,
    h1, h2, h3, h4, h5, h6, h7, h8, h9, h10, destOrTypeErr_ok _ _ h11, h12, h⟩

theorem alookup_append_some {α : Type} (k : String) (l1 l2 : List (String × α)) (v : α)
    (h : alookup k l1 = some v) : alookup k (l1 ++ l2) = some v := by
  induction l1 with
  | nil => exact absurd h (by simp [alookup])
  | cons kv rest ih =>
    obtain ⟨k', v'⟩ := kv
    by_cases hk : k = k'
    · simp only [alookup, if_pos hk] at h ⊢
      exact h
    · simp only [alookup, if_neg hk] at h ⊢
      exact ih h

theorem foldl_fillStep_preserves (l : List (String × CoordVal)) (a : DataArray) :
    (l.foldl fillStep a).data = a.data ∧ (l.foldl fillStep a).dims = a.dims ∧
    (l.foldl fillStep a).S = a.S ∧
    ∀ k v, alookup k a.coords = some v → alookup k (l.foldl fillStep a).coords = some v := by
  induction l generalizing a with
  | nil => exact ⟨rfl, rfl, rfl, fun _ _ h => h⟩
  | cons kv rest ih =>
    have hstep : (fillStep a kv).data = a.data ∧ (fillStep a kv).dims = a.dims ∧
        (fillStep a kv).S = a.S ∧
        ∀ k v, alookup k a.coords = some v → alookup k (fillStep a kv).coords = some v := by
      unfold fillStep
      split
      · exact ⟨rfl, rfl, rfl, fun _ _ h => h⟩
      · exact ⟨rfl, rfl, rfl, fun k v h => alookup_append_some k _ _ v h⟩
    obtain ⟨hd, hm, hs, hc⟩ := ih (fillStep a kv)
    simp only [List.foldl_cons]
    exact ⟨hd.trans hstep.1, hm.trans hstep.2.1, hs.trans hstep.2.2.1,
      fun k v h => hc k v (hstep.2.2.2 k v h)⟩

theorem fill_coords_preserves (arr : DataArray) :
    (fill_coords arr).data = arr.data ∧ (fill_coords arr).dims = arr.dims ∧
    (fill_coords arr).S = arr.S ∧
    ∀ k v, alookup k arr.coords = some v → alookup k (fill_coords arr).coords = some v := by
  unfold fill_coords
  split
  · exact foldl_fillStep_preserves _ _
  · exact ⟨rfl, rfl, rfl, fun _ _ h => h⟩

theorem exmap_some_ok (x : Except PyErr Dataset) (ds : Dataset)
    (h : (Except.map some x : Except PyErr (Option Dataset)) = .ok (some ds)) :
    x = .ok ds := by
  cases x with
  | error e => exact absurd h (by simp [Except.map])
  | ok d =>
    simp only [Except.map, Option.some.injEq, Except.ok.injEq] at h
    rw [h]

theorem getD_map_sub (vs : List ℤ) (w : ℤ) (n : Nat) (h : n < vs.length) :
    (vs.map (· - w)).getD n 0 = vs.getD n 0 - w := by
  simp [List.getD_eq_getElem?_getD, List.getElem?_map, List.getElem?_eq_getElem h]

theorem broadcast_subScalar_val (c : CoordVal) (w : ℤ) (sh : List Nat) (loc : Option Nat)
    (b : NArr)
    (hb : broadcast_by_dim_location ((CoordVal.asDA c).subScalar w) sh loc = .ok b)
    (i : List Nat) (hi : inRangeB c loc i = true) :
    b.val i = coordPointVal c loc i - w := by
  cases c with
  | scalar v =>
    simp only [CoordVal.asDA, PyVal.subScalar, broadcast_by_dim_location,
      Except.ok.injEq] at hb
    rw [← hb]
    rfl
  | vec vs =>
    cases loc with
    | none => exact absurd hi (by simp [inRangeB])
    | some q =>
      simp only [CoordVal.asDA, PyVal.subScalar, broadcast_by_dim_location,
        Except.ok.injEq] at hb
      rw [← hb]
      simp only [inRangeB, decide_eq_true_eq] at hi
      show (vs.map (· - w)).getD (i.getD q 0) 0 = coordPointVal (.vec vs) (some q) i - w
      rw [getD_map_sub vs w _ hi]
      rfl

theorem broadcast_asDA_val (c : CoordVal) (sh : List Nat) (loc : Option Nat) (b : NArr)
    (hb : broadcast_by_dim_location (CoordVal.asDA c) sh loc = .ok b)
    (i : List Nat) (hi : inRangeB c loc i = true) :
    b.val i = coordPointVal c loc i := by
  cases c with
  | scalar v =>
    simp only [CoordVal.asDA, broadcast_by_dim_location, Except.ok.injEq] at hb
    rw [← hb]
    rfl
  | vec vs =>
    cases loc with
    | none => exact absurd hi (by simp [inRangeB])
    | some q =>
      simp only [CoordVal.asDA, broadcast_by_dim_location, Except.ok.injEq] at hb
      rw [← hb]
      rfl

/-! Claim theorems. -/

/-- Claim C1 (evaluation at the failing input): `polarScanArr` is a (polar,)
scan, a row of the classification table, so the claim promises an output with
exactly kp and kz; instead the conversion raises `ValueError` at line 91,
where `(arr.coords['polar'].values or 0)` asks for the truth value of the
two-element polar array. -/
theorem c1_polar_row_crashes :
    destTable (oldDimsOf polarScanArr) = some ["kp", "kz"] ∧
    (convert_coordinates_to_kspace_forward idOps polarScanArr).2 = .error .valueError :=
  ⟨rfl, rfl⟩

/-- Claim C2 (counterexample): an input with no polar coordinate at all -
neither among the coordinates nor derivable from metadata - makes the
conversion fail with `KeyError('polar')` at line 91, instead of getting the
default 0 the claim promises. -/
theorem c2_absent_polar_keyerror :
    (convert_coordinates_to_kspace_forward idOps noPolarArr).2
      = .error (.keyError "polar") := rfl

/-- Claim C2 (amended): when a polar coordinate is present with a scalar
value v, `corrected_polar = v - polar_offset` - for v = 0 the truthy test
takes the default branch, which yields the same number `0 - polar_offset` -
while an input with no polar coordinate after coordinate filling fails with a
key-lookup error rather than defaulting to 0. -/
theorem c2_corrected_polar (arr2 : DataArray) :
    (∀ v, alookup "polar" arr2.coords = some (.scalar v) →
      rawPolar arr2 = .ok (.num (v - arr2.S.polar_offset))) ∧
    (alookup "polar" arr2.coords = none →
      rawPolar arr2 = .error (.keyError "polar")) := by
  constructor
  · intro v hv
    by_cases h0 : v = 0
    · subst h0
      simp [rawPolar, getCoord, hv, pyOr0, CoordVal.values, PyVal.subScalar,
        exbind_ok]
    · simp [rawPolar, getCoord, hv, pyOr0, h0, CoordVal.values, PyVal.subScalar,
        exbind_ok]
  · intro hn
    simp [rawPolar, getCoord, hn, exbind_err]

/-- Claim C2 (witness): `zeroPolarArr` carries a present polar coordinate of
exactly 0 and polar offset 5; corrected_polar evaluates to 0 - 5. -/
theorem c2_corrected_polar_witness :
    rawPolar zeroPolarArr = .ok (.num (0 - 5)) :=
  (c2_corrected_polar zeroPolarArr).1 0 rfl

/-- Claim C3 (evaluation at the failing input): `hvPolarArr` has the sorted
non-skipped dimensions (hv, polar), which is not a table row; instead of the
promised null result the conversion raises `TypeError` at line 158, where
`'kp' in dest_coords` is evaluated with `dest_coords = None`. -/
theorem c3_unsupported_combo_typeerror :
    oldDimsOf hvPolarArr = ["hv", "polar"] ∧
    destTable (oldDimsOf hvPolarArr) = none ∧
    (convert_coordinates_to_kspace_forward idOps hvPolarArr).2 = .error .typeError :=
  ⟨rfl, rfl, rfl⟩

/-- Claim C6 (counterexample): an actual vector handed to the broadcast
projector with no axis location is not broadcast as a scalar constant - the
projector fails with `TypeError`, because `the_slice[None] = slice(None)`
indexes a Python list with `None`. -/
theorem c6_vector_without_axis_is_error :
    broadcast_by_dim_location (.nd [1, 2]) [3] none = .error .typeError := rfl

/-- Claim C6 (amended): a scalar (number or zero-dimensional array) is
replicated uniformly across the whole target shape; a vector aligned to axis
position p varies only along that position (its value at a multi-index reads
only the p-th component) and is repeated along every other axis; but a vector
with no position in the fixed axis ordering is an error (TypeError), not a
scalar broadcast - only scalar-valued quantities fall back to the constant
path. -/
theorem c6_broadcast_projector (sh : List Nat) (v : ℤ) (vs : List ℤ) (p : Nat)
    (loc : Option Nat) :
    (broadcast_by_dim_location (.num v) sh loc = .ok (constArr sh v)) ∧
    (broadcast_by_dim_location (.daScalar v) sh loc = .ok (constArr sh v)) ∧
    (∀ i, (constArr sh v).val i = v) ∧
    (broadcast_by_dim_location (.nd vs) sh (some p) = .ok (injArr sh.length p vs)) ∧
    (∀ i, (injArr sh.length p vs).val i = vs.getD (i.getD p 0) 0) ∧
    (broadcast_by_dim_location (.nd vs) sh none = .error .typeError) ∧
    (broadcast_by_dim_location (.daVec vs) sh none = .error .typeError) :=
  ⟨rfl, rfl, fun _ => rfl, rfl, fun _ => rfl, rfl, rfl⟩

/-- Claim C4: whenever the output contains kp, kp appears exactly when 'kp'
is in the classification table's momentum-axis list (never taken from raw
input), and its array is the squeezed elementwise `sqrt(kx^2 + ky^2)` of the
kx and ky arrays computed from the same kinetic energy and corrected angles. -/
theorem c4_kp_euclidean_norm (ops : NumOps) (arr2 : DataArray) (full_old : List String)
    (shape : List Nat) (dest? : Option (List String)) (ds : Dataset)
    (h : convertAux ops arr2 full_old shape dest? = .ok ds) :
    (∀ dest, dest? = some dest → ((alookup "kp" ds.data_vars).isSome ↔ "kp" ∈ dest)) ∧
    (∀ dims a, alookup "kp" ds.data_vars = some (dims, a) →
      dims = full_old ∧
      ∃ rp rpo phiB polarB kinetic kx ky,
        rawPhi arr2 = .ok rp ∧ rawPolar arr2 = .ok rpo ∧
        broadcast_by_dim_location rp shape (dimLoc "phi" full_old) = .ok phiB ∧
        broadcast_by_dim_location rpo shape (dimLoc "polar" full_old) = .ok polarB ∧
        kineticStage arr2 full_old shape = .ok kinetic ∧
        euler_to_kx ops kinetic phiB polarB 0 arr2.S.is_slit_vertical = .ok kx ∧
        euler_to_ky ops kinetic phiB polarB 0 arr2.S.is_slit_vertical = .ok ky ∧
        a = np_squeeze (kpOf ops kx ky) ∧
        ∀ i, (kpOf ops kx ky).val i = ops.sqrt (kx.val i ^ 2 + ky.val i ^ 2)) := by
  obtain ⟨rp, rpo, rh, phiB, polarB, hvB, kinetic, kx, ky, kz, dest, dvars,
    h1, h2, h3, h4, h5, h6, h7, h8, h9, h10, h11, h12, h13⟩ :=
    convertAux_ok_elim ops arr2 full_old shape dest? ds h
  have hds := mkDataset_ok _ _ _ h13
  subst hds
  constructor
  · intro dest' hdest'
    rw [h11] at hdest'
    injection hdest' with he
    subst he
    exact buildVars_lookup_isSome _ _ _ _ h12 "kp"
  · intro dims a hk
    obtain ⟨hdims, b, hb, hab⟩ := buildVars_lookup_eq _ _ _ _ h12 "kp" dims a hk
    by_cases hkp : "kp" ∈ dest
    · rw [if_pos hkp] at hb
      have hrd : alookup "kp" ([("kx", kx), ("ky", ky), ("kz", kz)] ++
          [("kp", kpOf ops kx ky)]) = some (kpOf ops kx ky) := rfl
      rw [hrd] at hb
      injection hb with hbe
      exact ⟨hdims, rp, rpo, phiB, polarB, kinetic, kx, ky, h1, h2, h4, h5, h7, h8, h9,
        by rw [hab, ← hbe], fun i => rfl⟩
    · rw [if_neg hkp] at hb
      have hrd : alookup "kp" ([("kx", kx), ("ky", ky), ("kz", kz)] ++
          ([] : List (String × NArr))) = none := rfl
      rw [hrd] at hb
      exact absurd hb (by simp)

/-- Claim C4 (witness): on the concrete (phi,) scan, whose table row is
(kp, kz), the output of the pipeline body contains kp. -/
theorem c4_witness :
    (alookup "kp" (getDsA (convertAux idOps phiScanArr ["phi", "eV"] [2, 2]
      (some ["kp", "kz"]))).data_vars).isSome
      ↔ "kp" ∈ (["kp", "kz"] : List String) :=
  (c4_kp_euclidean_norm idOps phiScanArr ["phi", "eV"] [2, 2] (some ["kp", "kz"])
    (getDsA (convertAux idOps phiScanArr ["phi", "eV"] [2, 2] (some ["kp", "kz"]))) rfl).1
    ["kp", "kz"] rfl

/-- Claim C5: once the pipeline reaches the kinematic step, an input with a
point of negative kinetic energy makes the whole call fail with the distinct
InvalidKinematics condition; no momentum value is returned for such a point. -/
theorem c5_negative_kinetic_reported (ops : NumOps) (arr2 : DataArray)
    (full_old : List String) (shape : List Nat) (dest? : Option (List String))
    (rp rpo rh : PyVal) (phiB polarB hvB K : NArr)
    (h1 : rawPhi arr2 = .ok rp) (h2 : rawPolar arr2 = .ok rpo) (h3 : rawHv arr2 = .ok rh)
    (h4 : broadcast_by_dim_location rp shape (dimLoc "phi" full_old) = .ok phiB)
    (h5 : broadcast_by_dim_location rpo shape (dimLoc "polar" full_old) = .ok polarB)
    (h6 : broadcast_by_dim_location rh shape (dimLoc "hv" full_old) = .ok hvB)
    (h7 : kineticStage arr2 full_old shape = .ok K)
    (h8 : ∃ i ∈ allIdx K.shape, K.val i < 0) :
    convertAux ops arr2 full_old shape dest? = .error .invalidKinematics := by
  have hneg : K.hasNeg = true := by
    obtain ⟨i, hi, hlt⟩ := h8
    simp only [NArr.hasNeg, List.any_eq_true, decide_eq_true_eq]
    exact ⟨i, hi, hlt⟩
  have hkx : euler_to_kx ops K phiB polarB 0 arr2.S.is_slit_vertical
      = .error .invalidKinematics := by
    simp [euler_to_kx, hneg]
  simp only [convertAux, h1, h2, h3, h4, h5, h6, h7, exbind_ok]
  rw [hkx]
  rfl

/-- Claim C5 (witness): `negKEArr` has scalar eV coordinate -5, work function
0 and photon energy 0, so its single kinetic-energy point is -5 < 0 and the
conversion body reports InvalidKinematics. -/
theorem c5_witness :
    convertAux idOps negKEArr ["phi"] [1] (some ["kp", "kz"])
      = .error .invalidKinematics := by
  have h8 : ∃ i ∈ allIdx (getOkN (kineticStage negKEArr ["phi"] [1])).shape,
      (getOkN (kineticStage negKEArr ["phi"] [1])).val i < 0 :=
    ⟨[0], by decide, by decide⟩
  exact c5_negative_kinetic_reported idOps negKEArr ["phi"] [1] (some ["kp", "kz"])
    (.nd [1]) (.num 0) (.daScalar 0)
    (getOkN (broadcast_by_dim_location (.nd [1]) [1] (dimLoc "phi" ["phi"])))
    (getOkN (broadcast_by_dim_location (.num 0) [1] (dimLoc "polar" ["phi"])))
    (getOkN (broadcast_by_dim_location (.daScalar 0) [1] (dimLoc "hv" ["phi"])))
    (getOkN (kineticStage negKEArr ["phi"] [1]))
    rfl rfl rfl rfl rfl rfl rfl h8

/-- Claim C7: the kinetic energy is the pointwise sum of the binding-energy
term `eV - work_function` and the photon-energy term `hv`, each independently
broadcast to the target shape before the summation; at every in-range point
its value is `(eV - work_function) + hv` of that point's coordinates. -/
theorem c7_kinetic_energy (arr2 : DataArray) (full_old : List String) (shape : List Nat)
    (K : NArr) (h : kineticStage arr2 full_old shape = .ok K) :
    ∃ cE cH b p,
      getCoord arr2 "eV" = .ok cE ∧ getCoord arr2 "hv" = .ok cH ∧
      broadcast_by_dim_location ((CoordVal.asDA cE).subScalar arr2.S.work_function) shape
        (dimLoc "eV" full_old) = .ok b ∧
      broadcast_by_dim_location (CoordVal.asDA cH) shape (dimLoc "hv" full_old) = .ok p ∧
      K = b.add p ∧
      (∀ i, K.val i = b.val i + p.val i) ∧
      (∀ i, inRangeB cE (dimLoc "eV" full_old) i = true →
        inRangeB cH (dimLoc "hv" full_old) i = true →
        K.val i = (coordPointVal cE (dimLoc "eV" full_old) i - arr2.S.work_function) +
          coordPointVal cH (dimLoc "hv" full_old) i) := by
  obtain ⟨b, p, hbs, hps, hK⟩ := kineticStage_ok _ _ _ _ h
  obtain ⟨cE, hE, hbb⟩ := bindingStage_ok _ _ _ _ hbs
  obtain ⟨cH, hH, hpb⟩ := photonStage_ok _ _ _ _ hps
  subst hK
  refine ⟨cE, cH, b, p, hE, hH, hbb, hpb, rfl, fun i => rfl, fun i hiE hiH => ?_⟩
  have hv1 := broadcast_subScalar_val cE arr2.S.work_function shape
    (dimLoc "eV" full_old) b hbb i hiE
  have hv2 := broadcast_asDA_val cH shape (dimLoc "hv" full_old) p hpb i hiH
  show b.val i + p.val i = _
  rw [hv1, hv2]

/-- Claim C7 (witness): on the concrete (phi,) scan with kept eV axis, the
kinetic energy at index (0, 1) is eV = 1 minus work function 0 plus hv = 0. -/
theorem c7_witness :
    (getOkN (kineticStage phiScanArr ["phi", "eV"] [2, 2])).val [0, 1] = 1 := by
  obtain ⟨cE, cH, b, p, hE, hH, hb, hp, hK, hadd, hpoint⟩ :=
    c7_kinetic_energy phiScanArr ["phi", "eV"] [2, 2]
      (getOkN (kineticStage phiScanArr ["phi", "eV"] [2, 2])) rfl
  have hrE : getCoord phiScanArr "eV" = .ok (.vec [0, 1]) := rfl
  rw [hrE] at hE
  injection hE with hE'
  have hrH : getCoord phiScanArr "hv" = .ok (.scalar 0) := rfl
  rw [hrH] at hH
  injection hH with hH'
  subst hE'
  subst hH'
  have := hpoint [0, 1] rfl rfl
  exact this.trans (by decide)

/-- Claim C8 (counterexample): on a successful (phi,) conversion the returned
structure exposes exactly the kp and kz coordinate arrays over the index
coordinates; the original measurement datum 99 appears nowhere among the
values the structure stores, so the original data is not part of the output. -/
theorem c8_data_not_in_output :
    okSome ((convert_coordinates_to_kspace_forward idOps phiScanArr).2) = true ∧
    varNamesOf ((convert_coordinates_to_kspace_forward idOps phiScanArr).2) = ["kp", "kz"] ∧
    (99 : ℤ) ∈ phiScanArr.data ∧
    (99 : ℤ) ∉ storedValsOf ((convert_coordinates_to_kspace_forward idOps phiScanArr).2) :=
  ⟨rfl, rfl, by decide, by decide⟩

/-- Claim C8 (amended): a successful conversion returns a structure exposing
the momentum coordinate arrays named by the classification table together
with the original index coordinates, while the measurement data itself is not
included in the returned structure - it stays on the input array, whose data
is left unchanged. -/
theorem c8_output_structure (ops : NumOps) (arr : DataArray) (ds : Dataset)
    (h : (convert_coordinates_to_kspace_forward ops arr).2 = .ok (some ds)) :
    ds.coords = ((convert_coordinates_to_kspace_forward ops arr).1).indexes ∧
    ((convert_coordinates_to_kspace_forward ops arr).1).data = arr.data ∧
    ∃ dest, destTable (oldDimsOf arr) = some dest ∧ ds.data_vars.map Prod.fst = dest := by
  by_cases hemp : oldDimsOf arr = []
  · have h0 : (convert_coordinates_to_kspace_forward ops arr).2 = .ok none := by
      simp [convert_coordinates_to_kspace_forward, hemp]
    rw [h0] at h
    exact absurd h (by simp)
  · have h1 : convert_coordinates_to_kspace_forward ops arr
        = (fill_coords arr,
           (convertAux ops (fill_coords arr) (fullOldDimsOf arr) (shapeOf arr)
             (destTable (oldDimsOf arr))).map some) := by
      simp [convert_coordinates_to_kspace_forward, hemp]
    rw [h1] at h
    have hx := exmap_some_ok _ ds h
    obtain ⟨rp, rpo, rh, phiB, polarB, hvB, kinetic, kx, ky, kz, dest, dvars,
      _, _, _, _, _, _, _, _, _, _, h11, h12, h13⟩ :=
      convertAux_ok_elim _ _ _ _ _ _ hx
    have hds := mkDataset_ok _ _ _ h13
    subst hds
    rw [h1]
    exact ⟨rfl, (fill_coords_preserves arr).1, dest, h11,
      buildVars_names _ _ _ _ h12⟩

/-- Claim C8 (witness): concrete instance of the amended claim on the
successful (phi,) conversion. -/
theorem c8_witness :
    (getDs ((convert_coordinates_to_kspace_forward idOps phiScanArr).2)).coords
      = ((convert_coordinates_to_kspace_forward idOps phiScanArr).1).indexes :=
  (c8_output_structure idOps phiScanArr
    (getDs ((convert_coordinates_to_kspace_forward idOps phiScanArr).2)) rfl).1

/-- Claim C9: the conversion never mutates the input's data, dimensions,
metadata, or any existing coordinate entry - its only effect on the input is
the coordinate-filling step, which can only add coordinate entries that were
absent. -/
theorem c9_input_not_mutated (ops : NumOps) (arr : DataArray) :
    ((convert_coordinates_to_kspace_forward ops arr).1).data = arr.data ∧
    ((convert_coordinates_to_kspace_forward ops arr).1).dims = arr.dims ∧
    ((convert_coordinates_to_kspace_forward ops arr).1).S = arr.S ∧
    ∀ k v, alookup k arr.coords = some v →
      alookup k ((convert_coordinates_to_kspace_forward ops arr).1).coords = some v := by
  by_cases hemp : oldDimsOf arr = []
  · have h1 : (convert_coordinates_to_kspace_forward ops arr).1 = arr := by
      simp [convert_coordinates_to_kspace_forward, hemp]
    rw [h1]
    exact ⟨rfl, rfl, rfl, fun _ _ h => h⟩
  · have h1 : (convert_coordinates_to_kspace_forward ops arr).1 = fill_coords arr := by
      simp [convert_coordinates_to_kspace_forward, hemp]
    rw [h1]
    exact fill_coords_preserves arr

/-- Claim C9 (witness): the phi coordinate of the concrete (phi,) scan is
unchanged after conversion. -/
theorem c9_witness :
    alookup "phi" ((convert_coordinates_to_kspace_forward idOps phiScanArr).1).coords
      = some (.vec [1, 2]) :=
  (c9_input_not_mutated idOps phiScanArr).2.2.2 "phi" (.vec [1, 2]) rfl

/-- Claim C10: the pipeline body reads the phi, polar, hv and eV coordinate
entries unconditionally, in that order; whichever of them is absent after the
coordinate fill makes the call fail with that key's lookup error (given that
the reads and broadcasts before it succeed), never returning a momentum result;
and a convertible input can never produce the null no-transform value. -/
theorem c10_unconditional_coordinate_reads (ops : NumOps) (arr2 : DataArray)
    (full_old : List String) (shape : List Nat) (dest? : Option (List String)) :
    (alookup "phi" arr2.coords = none →
      convertAux ops arr2 full_old shape dest? = .error (.keyError "phi")) ∧
    ((∃ c, alookup "phi" arr2.coords = some c) → alookup "polar" arr2.coords = none →
      convertAux ops arr2 full_old shape dest? = .error (.keyError "polar")) ∧
    (∀ rp rpo, rawPhi arr2 = .ok rp → rawPolar arr2 = .ok rpo →
      alookup "hv" arr2.coords = none →
      convertAux ops arr2 full_old shape dest? = .error (.keyError "hv")) ∧
    (∀ rp rpo rh phiB polarB hvB, rawPhi arr2 = .ok rp → rawPolar arr2 = .ok rpo →
      rawHv arr2 = .ok rh →
      broadcast_by_dim_location rp shape (dimLoc "phi" full_old) = .ok phiB →
      broadcast_by_dim_location rpo shape (dimLoc "polar" full_old) = .ok polarB →
      broadcast_by_dim_location rh shape (dimLoc "hv" full_old) = .ok hvB →
      alookup "eV" arr2.coords = none →
      convertAux ops arr2 full_old shape dest? = .error (.keyError "eV")) ∧
    ((alookup "phi" arr2.coords = none ∨ alookup "polar" arr2.coords = none ∨
      alookup "hv" arr2.coords = none ∨ alookup "eV" arr2.coords = none) →
      ∀ ds, convertAux ops arr2 full_old shape dest? ≠ .ok ds) ∧
    (∀ arr dest, destTable (oldDimsOf arr) = some dest →
      (convert_coordinates_to_kspace_forward ops arr).2 ≠ .ok none) := by
  refine ⟨?_, ?_, ?_, ?_, ?_, ?_⟩
  · intro hn
    have hrp : rawPhi arr2 = .error (.keyError "phi") := by
      simp [rawPhi, getCoord, hn, exbind_err]
    simp [convertAux, hrp, exbind_err]
  · rintro ⟨c, hc⟩ hn
    have hrp : rawPhi arr2 = .ok ((CoordVal.values c).subScalar arr2.S.phi_offset) := by
      simp [rawPhi, getCoord, hc, exbind_ok]
    have hrpo : rawPolar arr2 = .error (.keyError "polar") := by
      simp [rawPolar, getCoord, hn, exbind_err]
    simp [convertAux, hrp, hrpo, exbind_ok, exbind_err]
  · intro rp rpo h1 h2 hn
    have hrh : rawHv arr2 = .error (.keyError "hv") := by
      simp [rawHv, getCoord, hn, exbind_err]
    simp [convertAux, h1, h2, hrh, exbind_ok, exbind_err]
  · intro rp rpo rh phiB polarB hvB h1 h2 h3 h4 h5 h6 hn
    have hks : kineticStage arr2 full_old shape = .error (.keyError "eV") := by
      simp [kineticStage, bindingStage, getCoord, hn, exbind_err]
    simp [convertAux, h1, h2, h3, h4, h5, h6, hks, exbind_ok, exbind_err]
  · intro hdisj ds hok
    obtain ⟨rp, rpo, rh, phiB, polarB, hvB, K, kx, ky, kz, dest, dvars,
      h1, h2, h3, _, _, _, h7, _, _, _, _, _, _⟩ :=
      convertAux_ok_elim ops arr2 full_old shape dest? ds hok
    obtain ⟨cphi, hcphi, _⟩ := rawPhi_ok _ _ h1
    obtain ⟨cpol, vpol, hcpol, _, _⟩ := rawPolar_ok _ _ h2
    obtain ⟨chv, hchv, _⟩ := rawHv_ok _ _ h3
    obtain ⟨b, p, hbs, _, _⟩ := kineticStage_ok _ _ _ _ h7
    obtain ⟨cE, hE, _⟩ := bindingStage_ok _ _ _ _ hbs
    have hE' := getCoord_ok _ _ _ hE
    rcases hdisj with hn | hn | hn | hn
    · rw [hn] at hcphi; exact absurd hcphi (by simp)
    · rw [hn] at hcpol; exact absurd hcpol (by simp)
    · rw [hn] at hchv; exact absurd hchv (by simp)
    · rw [hn] at hE'; exact absurd hE' (by simp)
  · intro arr dest hdest hok
    by_cases hemp : oldDimsOf arr = []
    · rw [hemp] at hdest
      exact absurd hdest (by simp [destTable])
    · have h1 : (convert_coordinates_to_kspace_forward ops arr).2
          = (convertAux ops (fill_coords arr) (fullOldDimsOf arr) (shapeOf arr)
              (destTable (oldDimsOf arr))).map some := by
        simp [convert_coordinates_to_kspace_forward, hemp]
      rw [h1] at hok
      cases haux : convertAux ops (fill_coords arr) (fullOldDimsOf arr) (shapeOf arr)
          (destTable (oldDimsOf arr)) with
      | error e => rw [haux] at hok; simp [Except.map] at hok
      | ok d => rw [haux] at hok; simp [Except.map] at hok

/-- Claim C10 (witness): `noPhiArr` has no phi coordinate, and the pipeline
body fails with `KeyError('phi')`. -/
theorem c10_witness :
    convertAux idOps noPhiArr ["hv"] [1] (some ["kp", "kz"])
      = .error (.keyError "phi") :=
  (c10_unconditional_coordinate_reads idOps noPhiArr ["hv"] [1] (some ["kp", "kz"])).1 rfl

end Arpes
